import Mathlib

/-!
Verification of the cache-aside decorator in `src/index.js`
(`redis-cachify-function`).

The decorator wraps an asynchronous function `cachedFunc`: a call first reads
the cache key from redis, on a hit reports the cached value, on a miss
optionally acquires a distributed lock, runs `cachedFunc`, writes the result
back with an expiry and releases the lock.

We embed one invocation of the decorated function as a pure interpreter that,
given the behaviour of the external collaborators for this invocation
(what `redis.get` passes to its callback, what `JSON.parse` / `JSON.stringify`
do, what `cachedFunc` passes to its completion callback, what `redis.set`
passes to its callback), produces the sequence of externally visible events in
order, or an exception when the code throws (the only throw site is the
unguarded `JSON.parse` on line 32).  Claims about callback arguments, call
counts and side-effect ordering become statements about this event trace.

Concurrent invocations (claim about mutual exclusion) are modelled separately
as an interleaving transition system over N copies of the per-invocation
protocol sharing one store entry and one lock.
-/

namespace Cachify

/-- A JavaScript value, as far as the decorator inspects values: it only ever
branches on truthiness, compares `options.lock` against `undefined`, and passes
values through otherwise.  `obj` stands for any other (always truthy) object
or array value, tagged so distinct objects stay distinct. -/
inductive JSVal where
  | null
  | undef
  | bool (b : Bool)
  | num (n : Int)
  | str (s : String)
  | obj (tag : Nat)
  deriving DecidableEq, Repr

/-- JavaScript truthiness: `null`, `undefined`, `false`, `0` and `""` are
falsy, everything else is truthy. -/
def truthy : JSVal → Bool
  | .null => false
  | .undef => false
  | .bool b => b
  | .num n => n != 0
  | .str s => s != ""
  | .obj _ => true

/-- `var LOCK_TTL = 60 * 1000;` (src/index.js line 4). -/
def LOCK_TTL : Int := 60 * 1000

/-- The recognized fields of the `options` argument (src/index.js lines
19-25).  `key` and `ttl` are required; `lockTTL` and `lock` are `JSVal.undef`
when absent, matching a missing property in JavaScript. -/
structure Options where
  key : String
  ttl : Int
  lockTTL : JSVal
  lock : JSVal

/-- `var lockKey = cacheKey + ':lock';` (line 20). -/
def lockKeyOf (o : Options) : String := o.key ++ ":lock"

/-- `var lockTTL = options.lockTTL || LOCK_TTL;` (line 24): JavaScript `||`
yields the left operand when it is truthy, the right one otherwise. -/
def lockTTLof (o : Options) : JSVal :=
  if truthy o.lockTTL then o.lockTTL else JSVal.num LOCK_TTL

/-- `var getLock = options.lock === undefined ? true : options.lock;`
(line 25).  `getLock` is only ever used in boolean position (`!getLock`,
line 39), so we record its truthiness. -/
def lockEnabled (o : Options) : Bool :=
  if o.lock = JSVal.undef then true else truthy o.lock

/-- The behaviour of the external collaborators during one invocation of the
decorated function.  Each collaborator invokes its callback exactly once:
* `getErr`, `getVal`: the `(err, cache)` pair `redis.get` passes (line 30);
  the raw cached value is a string or absent (`none`, i.e. `null`).
* `parse`: what `JSON.parse` does on a raw string; `none` means it throws
  (line 32 has no try/catch).
* `stringify`: what `JSON.stringify` does (line 57; total on our values).
* `computeErr`, `computeData`: the `(err, data)` pair `cachedFunc` passes to
  its trailing callback (lines 78, 88).
* `setErr`: the `err` that `redis.set` passes to its callback (line 57).
The distributed lock, when asked, eventually invokes its callback with a
release handle (line 43); acquisition has no failure outcome. -/
structure Env where
  getErr : JSVal
  getVal : Option String
  parse : String → Option JSVal
  stringify : JSVal → String
  computeErr : JSVal
  computeData : JSVal
  setErr : JSVal

/-- An externally visible action of one invocation, in the order it happens:
* `getCall k`: `redis.get(k, ...)` issued (line 30);
* `lockCall k t`: `lock(k, t, ...)` issued and acquisition completed (line 43);
* `computeCall args`: `cachedFunc.apply(null, args)` with the original
  positional arguments (line 88; the trailing callback slot is replaced);
* `setCall k v ex t`: `redis.set(k, v, 'EX', t, ...)` issued and its callback
  fired (lines 57, 83);
* `releaseCall`: `release()` on the held lock handle (lines 49, 72);
* `cbCall err res`: the caller's trailing completion callback invoked with
  `(err, res)` (lines 67, 75). -/
inductive Event where
  | getCall (key : String)
  | lockCall (key : String) (ttl : JSVal)
  | computeCall (args : List JSVal)
  | setCall (key : String) (val : String) (ex : String) (ttl : Int)
  | releaseCall
  | cbCall (err : JSVal) (res : JSVal)
  deriving DecidableEq, Repr

/-- The one exception the decorator can raise: `JSON.parse` on line 32
throwing on a malformed stored string. -/
inductive Exn where
  | parseFail
  deriving DecidableEq, Repr

/-- Lines 30-36, the `redis.get` callback: `if (cache) cache = JSON.parse(cache)`
then `cb(err, cache)`.  The raw value is truthy exactly when it is a present
non-empty string; parsing it may throw.  A falsy raw value (`null` or `""`)
is passed through unparsed. -/
def parseStep (env : Env) : Except Exn JSVal :=
  match env.getVal with
  | none => .ok JSVal.null
  | some s =>
    if s = "" then .ok (JSVal.str s)
    else
      match env.parse s with
      | some v => .ok v
      | none => .error Exn.parseFail

/-- Lines 70-89: the recomputation path.  `finish` (lines 70-76) releases the
lock handle when one is held, then invokes the caller's callback.  The wrapped
completion callback (lines 78-86) forwards a computation error to `finish`
with `data` left `undefined`, and otherwise writes the serialized result via
`setCache` (lines 56-58) and calls `finish(err, data)` (line 84) with the
write's error and the computed data. -/
def computePhase (o : Options) (posArgs : List JSVal) (env : Env)
    (hasRelease : Bool) : List Event :=
  Event.computeCall posArgs ::
    (if truthy env.computeErr then
      (if hasRelease then [Event.releaseCall] else []) ++
        [Event.cbCall env.computeErr JSVal.undef]
    else
      Event.setCall o.key (env.stringify env.computeData) "EX" o.ttl ::
        ((if hasRelease then [Event.releaseCall] else []) ++
          [Event.cbCall env.setErr env.computeData]))

/-- The continuation once `redis.get` succeeded (falsy `err`) with parsed
value `cache`: waterfall step two (lines 38-46), the waterfall's final
callback (lines 47-53) and the wrapper around `getCache` (lines 65-89).
* cache truthy: `cb(null, cache)` (line 40), so the final callback and then
  the wrapper see `(null, cache)` and report the hit (line 67);
* cache falsy, locking disabled: same `cb(null, cache)` path but the wrapper
  proceeds to recompute with no release handle;
* cache falsy, locking enabled: the lock is acquired with `lockKey` and
  `lockTTL` (line 43) and recomputation runs with the release handle. -/
def afterGet (o : Options) (posArgs : List JSVal) (env : Env)
    (cache : JSVal) : List Event :=
  if truthy cache then [Event.cbCall JSVal.null cache]
  else if lockEnabled o then
    Event.lockCall (lockKeyOf o) (lockTTLof o) ::
      computePhase o posArgs env true
  else computePhase o posArgs env false

/-- One invocation of the decorated function (lines 61-90), as the ordered
trace of external events, or the exception it throws.  When `redis.get`
reports a truthy error, the waterfall aborts to its final callback with
`(err, cache)` and no release handle (so the `err && release` release on
line 49 never fires), and the wrapper reports `(err, cache)` (line 67). -/
def runWrapped (o : Options) (posArgs : List JSVal) (env : Env) :
    Except Exn (List Event) :=
  match parseStep env with
  | .error e => .error e
  | .ok cache =>
    .ok (Event.getCall o.key ::
      (if truthy env.getErr then [Event.cbCall env.getErr cache]
       else afterGet o posArgs env cache))

/-! ### Trace observations -/

/-- Is this event an invocation of the caller's completion callback? -/
def isCb : Event → Bool
  | .cbCall _ _ => true
  | _ => false

/-- Is this event an invocation of `cachedFunc`? -/
def isCompute : Event → Bool
  | .computeCall _ => true
  | _ => false

/-- Is this event a lock acquisition? -/
def isLock : Event → Bool
  | .lockCall _ _ => true
  | _ => false

/-- Is this event a `release()` call? -/
def isRelease : Event → Bool
  | .releaseCall => true
  | _ => false

/-- Is this event a `redis.set` write? -/
def isSet : Event → Bool
  | .setCall _ _ _ _ => true
  | _ => false

/-- The arguments of all completion-callback invocations, in order. -/
def cbList (t : List Event) : List (JSVal × JSVal) :=
  t.filterMap fun e =>
    match e with
    | .cbCall a b => some (a, b)
    | _ => none

/-- `orderedB p q t = true` iff no `p`-event occurs after any `q`-event in
`t`; for disjoint `p` and `q` this says every `p`-event precedes every
`q`-event. -/
def orderedB (p q : Event → Bool) : List Event → Bool
  | [] => true
  | e :: t => ((!q e) || t.all fun x => !p x) && orderedB p q t

/-! ### Concurrent invocations

N invocations of the decorated function for the same key, all with locking
enabled, interleave only at the boundaries to the collaborators (the redis
reads and writes, lock acquisition, the computation).  Each invocation runs
the per-invocation protocol above; the store entry for the key and the
distributed lock are shared.  Each atomic step below is one collaborator
round-trip of one invocation, tagged with the source lines it abstracts. -/

/-- Where one invocation stands in the protocol:
`idle` = not yet past the `redis.get` (line 30); `waiting` = saw a miss and is
polling the lock (line 43); `computing` = lock held, `cachedFunc` running
(line 88); `written` = `redis.set` completed, release pending (lines 83, 70);
`doneHit` = reported a cache hit (line 67); `doneComputed` = released and
reported its fresh result (lines 72, 75); `doneFailed` = computation errored,
released and reported the error without writing (lines 80, 72, 75). -/
inductive Phase where
  | idle
  | waiting
  | computing
  | written
  | doneHit
  | doneComputed
  | doneFailed
  deriving DecidableEq, Repr

/-- Shared state of `n` concurrent invocations for one key: each invocation's
phase, whether a cache entry is present under the key, and which invocation
(if any) currently holds the distributed lock. -/
structure CSys (n : Nat) where
  pc : Fin n → Phase
  entry : Bool
  holder : Option (Fin n)

/-- All `n` invocations start before their `redis.get`, the key is empty and
the lock is free. -/
def cinit (n : Nat) : CSys n :=
  ⟨fun _ => Phase.idle, false, none⟩

/-- One atomic step of the interleaved system, by invocation `i`:
* `getHit`: the `redis.get` of `i` finds a present entry; `i` reports it and
  finishes without touching the lock (lines 30, 66-67);
* `getMiss`: the `redis.get` of `i` finds the key empty; `i` proceeds to the
  lock (lines 30, 43);
* `acquire`: the lock backend grants the free lock to a polling waiter
  (line 43; a correct backend grants only when no one holds it);
* `computeOk`: the computation of the holder succeeds and its `redis.set`
  lands the entry (lines 88, 83, 57);
* `computeFail`: the computation of the holder errors; it releases without
  writing and reports the error (lines 80, 70-76);
* `releaseStep`: the holder whose write landed releases and reports its
  result (lines 84, 70-76). -/
inductive CStep {n : Nat} : CSys n → CSys n → Prop where
  | getHit (s : CSys n) (i : Fin n) :
      s.pc i = Phase.idle → s.entry = true →
      CStep s ⟨Function.update s.pc i Phase.doneHit, s.entry, s.holder⟩
  | getMiss (s : CSys n) (i : Fin n) :
      s.pc i = Phase.idle → s.entry = false →
      CStep s ⟨Function.update s.pc i Phase.waiting, s.entry, s.holder⟩
  | acquire (s : CSys n) (i : Fin n) :
      s.pc i = Phase.waiting → s.holder = none →
      CStep s ⟨Function.update s.pc i Phase.computing, s.entry, some i⟩
  | computeOk (s : CSys n) (i : Fin n) :
      s.pc i = Phase.computing →
      CStep s ⟨Function.update s.pc i Phase.written, true, s.holder⟩
  | computeFail (s : CSys n) (i : Fin n) :
      s.pc i = Phase.computing →
      CStep s ⟨Function.update s.pc i Phase.doneFailed, s.entry, none⟩
  | releaseStep (s : CSys n) (i : Fin n) :
      s.pc i = Phase.written →
      CStep s ⟨Function.update s.pc i Phase.doneComputed, s.entry, none⟩

/-- States reachable from the all-idle, empty-key, free-lock start. -/
def CReach (n : Nat) (s : CSys n) : Prop :=
  Relation.ReflTransGen CStep (cinit n) s

/-- Lock-ownership invariant: an invocation that is computing, or has written
and not yet released, is the current lock holder. -/
def CInv {n : Nat} (s : CSys n) : Prop :=
  ∀ i : Fin n, (s.pc i = Phase.computing ∨ s.pc i = Phase.written) →
    s.holder = some i

/-- The mutual-exclusion property of a state: (1) at most one invocation has
its computation in flight; (2) an invocation can start computing only when
the lock is free and nobody is computing or holding an unreleased write —
i.e. only after the previous holder's release. -/
def MutexOK {n : Nat} (s : CSys n) : Prop :=
  (∀ i j : Fin n, s.pc i = Phase.computing → s.pc j = Phase.computing →
    i = j) ∧
  (∀ (t : CSys n) (i : Fin n), CStep s t →
    s.pc i ≠ Phase.computing → t.pc i = Phase.computing →
    s.holder = none ∧
      ∀ j : Fin n, s.pc j ≠ Phase.computing ∧ s.pc j ≠ Phase.written)

/-! ### Concrete collaborator instances, used in witnesses and
counterexamples -/

/-- Concrete options: key `"k"`, ttl 10 seconds, `lockTTL` and `lock`
properties absent. -/
def o0 : Options :=
  { key := "k", ttl := 10, lockTTL := JSVal.undef, lock := JSVal.undef }

/-- A concrete `JSON.parse` behaviour, agreeing with JavaScript on the inputs
used below: `"false"` parses to `false`, `"7"` to the number 7, and
`"garbage"` is malformed, so `JSON.parse` throws. -/
def parse0 : String → Option JSVal
  | "false" => some (JSVal.bool false)
  | "7" => some (JSVal.num 7)
  | _ => none

/-- A concrete `JSON.stringify` behaviour. -/
def stringify0 : JSVal → String := fun _ => "r"

/-- Collaborator behaviour: empty key, error-free store, computation succeeds
with the number 7, write succeeds. -/
def envMiss : Env :=
  { getErr := JSVal.null, getVal := none, parse := parse0,
    stringify := stringify0, computeErr := JSVal.null,
    computeData := JSVal.num 7, setErr := JSVal.null }

/-- Like `envMiss` but the `redis.set` write fails with `"boom"`. -/
def envBoom : Env := { envMiss with setErr := JSVal.str "boom" }

/-- Like `envMiss` but the key holds the serialized value `"false"`. -/
def envFalse : Env := { envMiss with getVal := some "false" }

/-- Like `envMiss` but the key holds the serialized value `"7"`. -/
def envSeven : Env := { envMiss with getVal := some "7" }

/-- The trace of `runWrapped o0 [] envMiss`: clean miss with locking. -/
def tMiss : List Event :=
  [Event.getCall "k", Event.lockCall "k:lock" (JSVal.num 60000),
   Event.computeCall [], Event.setCall "k" "r" "EX" 10,
   Event.releaseCall, Event.cbCall JSVal.null (JSVal.num 7)]

/-! ### Helper lemmas -/

/-- Every non-throwing run invokes the caller's completion callback exactly
once: shared by several claims below. -/
lemma cb_once {o : Options} {a : List JSVal} {env : Env} {t : List Event}
    (h : runWrapped o a env = .ok t) : t.countP isCb = 1 := by
  unfold runWrapped at h
  cases hp : parseStep env with
  | error e => rw [hp] at h; exact Except.noConfusion h
  | ok cache =>
    rw [hp, Except.ok.injEq] at h
    subst h
    by_cases hg : truthy env.getErr
    · simp [hg, List.countP_cons, isCb]
    · by_cases hc : truthy cache
      · simp [hg, hc, afterGet, List.countP_cons, isCb]
      · by_cases hl : lockEnabled o <;> by_cases hce : truthy env.computeErr <;>
          simp [hg, hc, hl, hce, afterGet, computePhase,
            List.countP_cons, List.countP_append, isCb]

/-- When every present, truthy raw value parses, the `redis.get` callback
does not throw. -/
lemma parseStep_ok {env : Env}
    (hp : ∀ s, env.getVal = some s → s ≠ "" → (env.parse s).isSome) :
    ∃ cache, parseStep env = .ok cache := by
  unfold parseStep
  cases hv : env.getVal with
  | none => exact ⟨JSVal.null, rfl⟩
  | some s =>
    by_cases hs : s = ""
    · exact ⟨JSVal.str s, by simp [hs]⟩
    · have := hp s hv hs
      cases hps : env.parse s with
      | none => rw [hps] at this; simp at this
      | some v => exact ⟨v, by simp [hs, hps]⟩

/-- When the `redis.get` callback does not throw, the whole invocation does
not throw. -/
lemma runWrapped_ok {o : Options} {a : List JSVal} {env : Env}
    (hp : ∀ s, env.getVal = some s → s ≠ "" → (env.parse s).isSome) :
    ∃ t, runWrapped o a env = .ok t := by
  obtain ⟨cache, hc⟩ := parseStep_ok hp
  exact ⟨_, by unfold runWrapped; rw [hc]⟩

/-! ### Claims -/

/-- Claim C1, counterexample: on a clean miss whose computation succeeds with
the number 7 and whose `redis.set` fails with `"boom"`, the completion
callback is invoked with `("boom", 7)` — the computed result is passed as the
second argument (line 84 is `finish(err, data)`), refuting "the trailing
completion callback is invoked with `(E, undefined)`: the caller never sees
the successfully computed value R". -/
theorem claim_C1_cex :
    (runWrapped o0 [] envBoom).map cbList =
      .ok [(JSVal.str "boom", JSVal.num 7)] ∧
    JSVal.num 7 ≠ JSVal.undef :=
  ⟨rfl, by decide⟩

/-- Claim C1, amended: when the wrapped computation succeeds with result R
and the subsequent store write fails with error E, the completion callback is
invoked with `(E, R)`: the write error in first position and the computed
value in second position, so the caller does receive R alongside the
error. -/
theorem claim_C1 (o : Options) (a : List JSVal) (env : Env)
    (hg : truthy env.getErr = false) (hv : env.getVal = none)
    (hce : truthy env.computeErr = false) (_hse : truthy env.setErr = true) :
    ∃ t, runWrapped o a env = .ok t ∧
      cbList t = [(env.setErr, env.computeData)] := by
  have hps : parseStep env = .ok JSVal.null := by unfold parseStep; rw [hv]
  refine ⟨_, by unfold runWrapped; rw [hps], ?_⟩
  by_cases hl : lockEnabled o <;>
    simp [hg, hl, hce, afterGet, computePhase, cbList,
      show truthy JSVal.null = false from rfl]

/-- Witness for C1 at a concrete input: write fails with `"boom"` after the
computation produced 7. -/
theorem claim_C1_witness :
    truthy envBoom.getErr = false ∧ envBoom.getVal = none ∧
    truthy envBoom.computeErr = false ∧ truthy envBoom.setErr = true ∧
    ∃ t, runWrapped o0 [] envBoom = .ok t ∧
      cbList t = [(envBoom.setErr, envBoom.computeData)] :=
  ⟨rfl, rfl, rfl, by decide,
   claim_C1 o0 [] envBoom rfl rfl rfl (by decide)⟩

/-- Claim C2, counterexample: the store holds the present value `"false"`
(the serialization of the boolean `false`) with no error, yet the invocation
acquires the lock, invokes `cachedFunc`, and reports the fresh computation's
result instead of `(null, false)`: line 39 tests the truthiness of the
*parsed* value, so a falsy deserialized value is treated as a miss.  This
refutes "never invokes the wrapped computation ... and never acquires the
distributed lock". -/
theorem claim_C2_cex :
    (runWrapped o0 [] envFalse).map
        (fun t => (t.countP isCompute, t.countP isLock, cbList t)) =
      .ok (1, 1, [(JSVal.null, JSVal.num 7)]) ∧
    envFalse.getVal = some "false" ∧
    envFalse.parse "false" = some (JSVal.bool false) ∧
    truthy envFalse.getErr = false ∧
    JSVal.num 7 ≠ JSVal.bool false :=
  ⟨rfl, rfl, rfl, rfl, by decide⟩

/-- Claim C2, amended: for every key whose store read returns, with no error,
a present raw value that deserializes to a *truthy* value V, the decorated
function reports `(null, V)`, never invokes `cachedFunc` and never acquires
the lock.  A present value deserializing to a falsy value (`false`, `0`,
`null`, `""`) is instead treated as a cache miss: the computation runs and a
lock may be acquired. -/
theorem claim_C2 (o : Options) (a : List JSVal) (env : Env) (s : String)
    (v : JSVal) (hg : truthy env.getErr = false) (hv : env.getVal = some s)
    (hs : s ≠ "") (hp : env.parse s = some v) (htv : truthy v = true) :
    runWrapped o a env =
      .ok [Event.getCall o.key, Event.cbCall JSVal.null v] := by
  have hps : parseStep env = .ok v := by
    unfold parseStep; rw [hv]; simp [hs, hp]
  unfold runWrapped
  rw [hps]
  simp [hg, afterGet, htv]

/-- Witness for C2 at a concrete input: the key holds `"7"`, which parses to
the truthy number 7. -/
theorem claim_C2_witness :
    truthy envSeven.getErr = false ∧ envSeven.getVal = some "7" ∧
    "7" ≠ "" ∧ envSeven.parse "7" = some (JSVal.num 7) ∧
    truthy (JSVal.num 7) = true ∧
    runWrapped o0 [] envSeven =
      .ok [Event.getCall o0.key, Event.cbCall JSVal.null (JSVal.num 7)] :=
  ⟨rfl, rfl, by decide, rfl, by decide,
   claim_C2 o0 [] envSeven "7" (JSVal.num 7) rfl rfl (by decide) rfl
     (by decide)⟩

/-- Claim C3, counterexample: with an error-free store read returning the
present raw value `"garbage"`, which `JSON.parse` rejects, the invocation
throws the parse exception across the boundary (and the completion callback
never fires), refuting "the decorated function never throws an exception
across its boundary ... including a stored value that cannot be
deserialized". -/
theorem claim_C3_cex :
    runWrapped o0 [] { envMiss with getVal := some "garbage" } =
      .error Exn.parseFail ∧
    ({ envMiss with getVal := some "garbage" } : Env).parse "garbage" =
      none ∧
    truthy ({ envMiss with getVal := some "garbage" } : Env).getErr =
      false := by
  refine ⟨rfl, rfl, rfl⟩

/-- Claim C3, amended: provided every present, truthy stored raw value
deserializes successfully, the decorated function never throws across its
boundary and every failure is reported via the completion callback, which
fires exactly once.  A present stored value that `JSON.parse` rejects
instead escapes as an exception (line 32 has no try/catch) and the callback
never fires. -/
theorem claim_C3 (o : Options) (a : List JSVal) (env : Env)
    (hp : ∀ s, env.getVal = some s → s ≠ "" → (env.parse s).isSome) :
    ∃ t, runWrapped o a env = .ok t ∧ t.countP isCb = 1 := by
  obtain ⟨t, ht⟩ := runWrapped_ok (o := o) (a := a) hp
  exact ⟨t, ht, cb_once ht⟩

/-- Witness for C3 at a concrete input: an empty key, so no parse happens. -/
theorem claim_C3_witness :
    (∀ s, envMiss.getVal = some s → s ≠ "" → (envMiss.parse s).isSome) ∧
    ∃ t, runWrapped o0 [] envMiss = .ok t ∧ t.countP isCb = 1 :=
  ⟨fun _ hs => Option.noConfusion hs,
   claim_C3 o0 [] envMiss fun _ hs => Option.noConfusion hs⟩

/-- Claim C8: every single call of the decorated function invokes its
trailing completion callback exactly once, on every path that completes
(store read error, cache hit, computation error, write error, write
success), each collaborator invoking its own callback exactly once, as the
`Env` model stipulates. -/
theorem claim_C8 (o : Options) (a : List JSVal) (env : Env) (t : List Event)
    (h : runWrapped o a env = .ok t) : t.countP isCb = 1 :=
  cb_once h

/-- Witness for C8 at a concrete input: the clean-miss trace. -/
theorem claim_C8_witness :
    runWrapped o0 [] envMiss = .ok tMiss ∧ tMiss.countP isCb = 1 :=
  ⟨rfl, claim_C8 o0 [] envMiss tMiss rfl⟩

/-- Claim C4: on a cache miss (error-free read of an empty key) the decorated
function invokes `cachedFunc` exactly once, with the original positional
arguments, and when the computation succeeds it performs exactly one store
write — of the serialized result, under the cache key, with
`'EX' ttl` — and that write completes before the completion callback
fires. -/
theorem claim_C4 (o : Options) (a : List JSVal) (env : Env)
    (hg : truthy env.getErr = false) (hv : env.getVal = none) :
    ∃ t, runWrapped o a env = .ok t ∧
      t.countP isCompute = 1 ∧ Event.computeCall a ∈ t ∧
      (truthy env.computeErr = false →
        t.countP isSet = 1 ∧
        Event.setCall o.key (env.stringify env.computeData) "EX" o.ttl ∈ t ∧
        orderedB isSet isCb t = true) := by
  have hps : parseStep env = .ok JSVal.null := by unfold parseStep; rw [hv]
  refine ⟨_, by unfold runWrapped; rw [hps], ?_⟩
  by_cases hl : lockEnabled o <;> by_cases hce : truthy env.computeErr <;>
    simp [hg, hl, hce, afterGet, computePhase, isCompute, isSet, isCb,
      orderedB, List.countP_cons, show truthy JSVal.null = false from rfl]

/-- Witness for C4 at a concrete input: the clean-miss environment. -/
theorem claim_C4_witness :
    truthy envMiss.getErr = false ∧ envMiss.getVal = none ∧
    ∃ t, runWrapped o0 [] envMiss = .ok t ∧
      t.countP isCompute = 1 ∧ Event.computeCall [] ∈ t ∧
      (truthy envMiss.computeErr = false →
        t.countP isSet = 1 ∧
        Event.setCall o0.key (envMiss.stringify envMiss.computeData) "EX"
          o0.ttl ∈ t ∧
        orderedB isSet isCb t = true) :=
  ⟨rfl, rfl, claim_C4 o0 [] envMiss rfl rfl⟩

/-- Claim C5: in every completed invocation, the number of `release()` calls
equals the number of lock acquisitions (so a lock that was acquired is
released exactly once on every exit path, and no release happens when no lock
was acquired), at most one lock is acquired, and every release precedes the
completion callback. -/
theorem claim_C5 (o : Options) (a : List JSVal) (env : Env) (t : List Event)
    (h : runWrapped o a env = .ok t) :
    t.countP isRelease = t.countP isLock ∧ t.countP isLock ≤ 1 ∧
      orderedB isRelease isCb t = true := by
  unfold runWrapped at h
  cases hp : parseStep env with
  | error e => rw [hp] at h; exact Except.noConfusion h
  | ok cache =>
    rw [hp, Except.ok.injEq] at h
    subst h
    by_cases hg : truthy env.getErr
    · simp [hg, List.countP_cons, isLock, isRelease, isCb, orderedB]
    · by_cases hc : truthy cache
      · simp [hg, hc, afterGet, List.countP_cons, isLock, isRelease, isCb,
          orderedB]
      · by_cases hl : lockEnabled o <;> by_cases hce : truthy env.computeErr <;>
          simp [hg, hc, hl, hce, afterGet, computePhase, List.countP_cons,
            isLock, isRelease, isCb, orderedB]

/-- Witness for C5 at a concrete input: the clean-miss trace, which acquires
and releases the lock once. -/
theorem claim_C5_witness :
    runWrapped o0 [] envMiss = .ok tMiss ∧
    tMiss.countP isRelease = tMiss.countP isLock ∧
    tMiss.countP isLock ≤ 1 ∧ orderedB isRelease isCb tMiss = true :=
  ⟨rfl, claim_C5 o0 [] envMiss tMiss rfl⟩

/-- Claim C6: on every successful recomputation (error-free read of an empty
key and a computation that succeeds), there is exactly one store write, every
write precedes every release, every release precedes the completion callback,
and the write precedes the completion callback:
write-before-release-before-completion. -/
theorem claim_C6 (o : Options) (a : List JSVal) (env : Env)
    (hg : truthy env.getErr = false) (hv : env.getVal = none)
    (hce : truthy env.computeErr = false) :
    ∃ t, runWrapped o a env = .ok t ∧ t.countP isSet = 1 ∧
      orderedB isSet isRelease t = true ∧
      orderedB isRelease isCb t = true ∧
      orderedB isSet isCb t = true := by
  have hps : parseStep env = .ok JSVal.null := by unfold parseStep; rw [hv]
  refine ⟨_, by unfold runWrapped; rw [hps], ?_⟩
  by_cases hl : lockEnabled o <;>
    simp [hg, hl, hce, afterGet, computePhase, isSet, isRelease, isCb,
      orderedB, List.countP_cons, show truthy JSVal.null = false from rfl]

/-- Witness for C6 at a concrete input: the clean-miss trace. -/
theorem claim_C6_witness :
    truthy envMiss.getErr = false ∧ envMiss.getVal = none ∧
    truthy envMiss.computeErr = false ∧
    ∃ t, runWrapped o0 [] envMiss = .ok t ∧ t.countP isSet = 1 ∧
      orderedB isSet isRelease t = true ∧
      orderedB isRelease isCb t = true ∧
      orderedB isSet isCb t = true :=
  ⟨rfl, rfl, rfl, claim_C6 o0 [] envMiss rfl rfl rfl⟩

/-- Claim C7: when the store read reports a truthy error (and, as a correct
store does, any raw value it passes alongside is deserializable or absent),
the invocation aborts immediately: the completion callback fires with the
error as its first argument, and no lock acquisition, no release and no
invocation of `cachedFunc` happen. -/
theorem claim_C7 (o : Options) (a : List JSVal) (env : Env)
    (hg : truthy env.getErr = true)
    (hp : ∀ s, env.getVal = some s → s ≠ "" → (env.parse s).isSome) :
    ∃ t, runWrapped o a env = .ok t ∧
      (cbList t).map Prod.fst = [env.getErr] ∧
      t.countP isCompute = 0 ∧ t.countP isLock = 0 ∧
      t.countP isRelease = 0 := by
  obtain ⟨cache, hps⟩ := parseStep_ok hp
  refine ⟨_, by unfold runWrapped; rw [hps], ?_⟩
  simp [hg, cbList, isCompute, isLock, isRelease, List.countP_cons]

/-- Witness for C7 at a concrete input: the read fails with `"readerr"` and
passes no value. -/
theorem claim_C7_witness :
    truthy ({ envMiss with getErr := JSVal.str "readerr" } : Env).getErr =
      true ∧
    ∃ t, runWrapped o0 [] { envMiss with getErr := JSVal.str "readerr" } =
        .ok t ∧
      (cbList t).map Prod.fst =
        [({ envMiss with getErr := JSVal.str "readerr" } : Env).getErr] ∧
      t.countP isCompute = 0 ∧ t.countP isLock = 0 ∧
      t.countP isRelease = 0 :=
  ⟨by decide,
   claim_C7 o0 [] { envMiss with getErr := JSVal.str "readerr" } (by decide)
     fun _ hs => Option.noConfusion hs⟩

/-- Claim C10: the lock lifetime handed to the distributed lock is
`options.lockTTL` when that value is truthy and the default 60000 ms
otherwise, so a present-but-falsy `lockTTL` (for example 0) is silently
replaced by 60000 and a zero lock TTL cannot be requested; on the locking
path the acquisition indeed carries this computed lifetime. -/
theorem claim_C10 (o : Options) (a : List JSVal) (env : Env)
    (hg : truthy env.getErr = false) (hv : env.getVal = none)
    (hl : lockEnabled o = true) :
    (∃ t, runWrapped o a env = .ok t ∧
      Event.lockCall (lockKeyOf o) (lockTTLof o) ∈ t) ∧
    (truthy o.lockTTL = false → lockTTLof o = JSVal.num 60000) ∧
    (truthy o.lockTTL = true → lockTTLof o = o.lockTTL) := by
  have hps : parseStep env = .ok JSVal.null := by unfold parseStep; rw [hv]
  refine ⟨⟨_, by unfold runWrapped; rw [hps], ?_⟩, ?_, ?_⟩
  · simp [hg, hl, afterGet, computePhase,
      show truthy JSVal.null = false from rfl]
  · intro h; simp [lockTTLof, h, LOCK_TTL]
  · intro h; simp [lockTTLof, h]

/-- Witness for C10 at a concrete input: `options.lockTTL` present and equal
to 0. -/
theorem claim_C10_witness :
    truthy envMiss.getErr = false ∧ envMiss.getVal = none ∧
    lockEnabled { o0 with lockTTL := JSVal.num 0 } = true ∧
    (∃ t, runWrapped { o0 with lockTTL := JSVal.num 0 } [] envMiss = .ok t ∧
      Event.lockCall (lockKeyOf { o0 with lockTTL := JSVal.num 0 })
        (lockTTLof { o0 with lockTTL := JSVal.num 0 }) ∈ t) ∧
    (truthy ({ o0 with lockTTL := JSVal.num 0 } : Options).lockTTL = false →
      lockTTLof { o0 with lockTTL := JSVal.num 0 } = JSVal.num 60000) ∧
    (truthy ({ o0 with lockTTL := JSVal.num 0 } : Options).lockTTL = true →
      lockTTLof { o0 with lockTTL := JSVal.num 0 } =
        ({ o0 with lockTTL := JSVal.num 0 } : Options).lockTTL) :=
  ⟨rfl, rfl, by decide,
   claim_C10 { o0 with lockTTL := JSVal.num 0 } [] envMiss rfl rfl
     (by decide)⟩

/-- The initial state satisfies the lock-ownership invariant: nobody computes
and nobody holds the lock. -/
lemma cinv_init (n : Nat) : CInv (cinit n) := by
  intro i h
  rcases h with h | h <;> exact Phase.noConfusion h

/-- Every step preserves the lock-ownership invariant. -/
lemma cinv_step {n : Nat} {s s' : CSys n} (hs : CInv s) (h : CStep s s') :
    CInv s' := by
  cases h with
  | getHit i hpc hent =>
    intro j hj
    dsimp only at hj ⊢
    by_cases hij : j = i
    · subst hij
      rw [Function.update_same] at hj
      rcases hj with hj | hj <;> exact Phase.noConfusion hj
    · rw [Function.update_noteq hij] at hj
      exact hs j hj
  | getMiss i hpc hent =>
    intro j hj
    dsimp only at hj ⊢
    by_cases hij : j = i
    · subst hij
      rw [Function.update_same] at hj
      rcases hj with hj | hj <;> exact Phase.noConfusion hj
    · rw [Function.update_noteq hij] at hj
      exact hs j hj
  | acquire i hpc hol =>
    intro j hj
    dsimp only at hj ⊢
    by_cases hij : j = i
    · subst hij; rfl
    · rw [Function.update_noteq hij] at hj
      rw [hs j hj] at hol
      exact Option.noConfusion hol
  | computeOk i hpc =>
    intro j hj
    dsimp only at hj ⊢
    by_cases hij : j = i
    · subst hij
      exact hs j (Or.inl hpc)
    · rw [Function.update_noteq hij] at hj
      exact hs j hj
  | computeFail i hpc =>
    intro j hj
    dsimp only at hj ⊢
    by_cases hij : j = i
    · subst hij
      rw [Function.update_same] at hj
      rcases hj with hj | hj <;> exact Phase.noConfusion hj
    · rw [Function.update_noteq hij] at hj
      have h1 := hs j hj
      have h2 := hs i (Or.inl hpc)
      rw [h2] at h1
      exact absurd (Option.some.inj h1) (fun he => hij he.symm)
  | releaseStep i hpc =>
    intro j hj
    dsimp only at hj ⊢
    by_cases hij : j = i
    · subst hij
      rw [Function.update_same] at hj
      rcases hj with hj | hj <;> exact Phase.noConfusion hj
    · rw [Function.update_noteq hij] at hj
      have h1 := hs j hj
      have h2 := hs i (Or.inr hpc)
      rw [h2] at h1
      exact absurd (Option.some.inj h1) (fun he => hij he.symm)

/-- Every reachable state satisfies the lock-ownership invariant. -/
lemma cinv_reach {n : Nat} {s : CSys n} (h : CReach n s) : CInv s := by
  unfold CReach at h
  induction h with
  | refl => exact cinv_init n
  | tail _ hbc ih => exact cinv_step ih hbc

/-- The only step that makes an invocation start computing is an acquisition
by that invocation, which requires it to be a polling waiter and the lock to
be free. -/
lemma enter_computing {n : Nat} {s s' : CSys n} {i : Fin n} (h : CStep s s')
    (h1 : s.pc i ≠ Phase.computing) (h2 : s'.pc i = Phase.computing) :
    s.pc i = Phase.waiting ∧ s.holder = none := by
  cases h with
  | getHit j hpc hent =>
    dsimp only at h2
    by_cases hij : i = j
    · subst hij
      rw [Function.update_same] at h2
      exact Phase.noConfusion h2
    · rw [Function.update_noteq hij] at h2
      exact absurd h2 h1
  | getMiss j hpc hent =>
    dsimp only at h2
    by_cases hij : i = j
    · subst hij
      rw [Function.update_same] at h2
      exact Phase.noConfusion h2
    · rw [Function.update_noteq hij] at h2
      exact absurd h2 h1
  | acquire j hpc hol =>
    dsimp only at h2
    by_cases hij : i = j
    · subst hij
      exact ⟨hpc, hol⟩
    · rw [Function.update_noteq hij] at h2
      exact absurd h2 h1
  | computeOk j hpc =>
    dsimp only at h2
    by_cases hij : i = j
    · subst hij
      rw [Function.update_same] at h2
      exact Phase.noConfusion h2
    · rw [Function.update_noteq hij] at h2
      exact absurd h2 h1
  | computeFail j hpc =>
    dsimp only at h2
    by_cases hij : i = j
    · subst hij
      rw [Function.update_same] at h2
      exact Phase.noConfusion h2
    · rw [Function.update_noteq hij] at h2
      exact absurd h2 h1
  | releaseStep j hpc =>
    dsimp only at h2
    by_cases hij : i = j
    · subst hij
      rw [Function.update_same] at h2
      exact Phase.noConfusion h2
    · rw [Function.update_noteq hij] at h2
      exact absurd h2 h1

/-- Claim C9: in every state reachable by N concurrent invocations of the
decorated function for the same empty key with locking enabled and a correct
lock backend, at most one execution of the wrapped computation is in flight,
and an invocation can start computing only when the lock is free and nobody
else is computing or holding an unreleased write — that is, only after the
previous holder's release (waiters that instead find the freshly written
entry finish via the `getHit` transition without ever computing). -/
theorem claim_C9 (n : Nat) (s : CSys n) (h : CReach n s) : MutexOK s := by
  have hinv := cinv_reach h
  constructor
  · intro i j hi hj
    have h1 := hinv i (Or.inl hi)
    have h2 := hinv j (Or.inl hj)
    rw [h1] at h2
    exact Option.some.inj h2
  · intro s' i hstep h1 h2
    obtain ⟨_, hol⟩ := enter_computing hstep h1 h2
    refine ⟨hol, fun j => ⟨?_, ?_⟩⟩
    · intro hcj
      have hj := hinv j (Or.inl hcj)
      rw [hol] at hj
      exact Option.noConfusion hj
    · intro hwj
      have hj := hinv j (Or.inr hwj)
      rw [hol] at hj
      exact Option.noConfusion hj

/-- Witness for C9 at a concrete input: the initial state of two concurrent
invocations is reachable and satisfies the mutual-exclusion property. -/
theorem claim_C9_witness : CReach 2 (cinit 2) ∧ MutexOK (cinit 2) :=
  ⟨Relation.ReflTransGen.refl, claim_C9 2 (cinit 2) Relation.ReflTransGen.refl⟩

end Cachify
